import Mathlib

set_option maxHeartbeats 1000000

/-!
Verification of the Pyto particle-extraction engine (`pyto/particles/set.py`,
class `Set`) and of the two-step correlation script
(`examples/correlation/two_step_move-search_gl.py`).

The Python code is shallowly embedded: numpy integer coordinate arithmetic
becomes `Int`, float intensity data becomes `ℚ` where only ordering and
clipping matter and `ℝ` where square roots appear (standard deviations,
error propagation), the pandas data table becomes a list of rows, and
exceptions become `Except`/`Option` results.
-/

/-- A 3D integer vector: one value per axis of a volume.  Mirrors the numpy
shape/coordinate triples used by `Set.adjust_box_coords`. -/
structure Vec3 where
  x : Int
  y : Int
  z : Int
deriving DecidableEq, Repr

/-- One axis of `Set.adjust_box_coords`.  All numpy operations there are
elementwise, so the 3D adjustment is this function applied per axis:
`half = box_size // 2`; `left = center - half`; clamp negative left to 0;
`right = left + box_size`; if `right >= shape` pull it back to `shape`;
final left corner is `right - box_size` and the corrected center is
`left_corner + half`.  Returns `(left_corner, corrected_center)`. -/
def adjustAxis (boxSize shape center : Int) : Int × Int :=
  let half := Int.fdiv boxSize 2
  let leftCoord := center - half
  let leftFixed := if leftCoord < 0 then 0 else leftCoord
  let rightCoord := leftFixed + boxSize
  let rightFixed := if shape ≤ rightCoord then shape else rightCoord
  (rightFixed - boxSize, rightFixed - boxSize + half)

/-- `Set.adjust_box_coords`: first the sanity check
`if (shape < self.box_size).any(): raise ValueError(...)`, then for every
center the elementwise box adjustment.  The result pairs each center's
left corner with its corrected center (the attributes `_left_corners` and
`_centers`). -/
def adjust_box_coords (boxSize : Int) (shape : Vec3) (centers : List Vec3) :
    Except String (List (Vec3 × Vec3)) :=
  if shape.x < boxSize ∨ shape.y < boxSize ∨ shape.z < boxSize then
    Except.error "Box size is larger than the labels shape"
  else
    Except.ok (centers.map fun c =>
      let ax := adjustAxis boxSize shape.x c.x
      let ay := adjustAxis boxSize shape.y c.y
      let az := adjustAxis boxSize shape.z c.z
      (⟨(ax).1, (ay).1, (az).1⟩, ⟨(ax).2, (ay).2, (az).2⟩))

/-- Representable range of a target numeric dtype, as reported by
`np.finfo`/`np.iinfo` in `Set.write_particles`.  Particle intensities are
floats before the cast, so the bounds live in `ℚ`. -/
structure DtypeInfo where
  rmin : ℚ
  rmax : ℚ
deriving DecidableEq

/-- `np.iinfo(np.int8)`: the int8 range [-128, 127]. -/
def int8Info : DtypeInfo := ⟨-128, 127⟩

/-- The warning condition of `Set.write_particles`:
`(particle_data < range_info.min).any() or (particle_data > range_info.max).any()`. -/
def clipWarn (info : DtypeInfo) (data : List ℚ) : Bool :=
  (data.any fun v => decide (v < info.rmin)) || (data.any fun v => decide (info.rmax < v))

/-- `np.clip(particle_data, range_info.min, range_info.max)` applied
elementwise: each value is raised to the lower bound and lowered to the
upper bound. -/
def clipData (info : DtypeInfo) (data : List ℚ) : List ℚ :=
  data.map fun v => min (max v info.rmin) info.rmax

/-- `astype(dtype, casting='unsafe')` for an integer dtype: C-style
truncation toward zero of each float value. -/
def truncToInt (q : ℚ) : Int := Int.tdiv q.num (q.den : Int)

/-- The clip-and-cast stage of `Set.write_particles`: report whether any
value was out of range (the non-fatal warning), then clip and cast. -/
def castParticle (info : DtypeInfo) (data : List ℚ) : Bool × List Int :=
  (clipWarn info data, (clipData info data).map truncToInt)

/-- The identifier loop of `Set.extract_particles`: for each requested
identifier, the first group (in the given order) whose identifier list
contains it is processed and `(group, identifier)` is recorded; an
identifier contained in no group raises
`ValueError("Identifier ... does not belong to any of the groups ...")`,
aborting the extraction.  `struct` maps a group name to its identifier
list (`self.struct[g_name].identifiers`). -/
def extract_particles (struct : String → List String) (groupNames : List String) :
    List String → Except String (List (String × String))
  | [] => Except.ok []
  | ident :: rest =>
    match groupNames.find? (fun g => decide (ident ∈ struct g)) with
    | some g =>
      match extract_particles struct groupNames rest with
      | Except.ok l => Except.ok ((g, ident) :: l)
      | Except.error e => Except.error e
    | none =>
      Except.error ("Identifier " ++ ident ++ " does not belong to any of the groups")

/-- The mosaic correction of the correlation script:
`corr.overviewMarkers - corr.mosaic_markers[0] + corr.mosaic_markers[1]`,
where `mosaic_markers[0]` is the main feature's position on the mosaic
image (row `overview_mosaic_main_row`) and `mosaic_markers[1]` its position
on the single reference overview image (row `overview_main_row`). -/
def mosaicCorrect (markers : List (ℚ × ℚ)) (mosaicMain singleMain : ℚ × ℚ) :
    List (ℚ × ℚ) :=
  markers.map fun p => p - mosaicMain + singleMain

/-- The overview markers handed to the LM-overview fit by `main`: the
mosaic correction is applied exactly when
`(overview2search_mode == 'move overview') and mosaic`, before any fit. -/
def overviewMarkersForFit (mode : String) (mosaic : Bool)
    (markers : List (ℚ × ℚ)) (mosaicMain singleMain : ℚ × ℚ) : List (ℚ × ℚ) :=
  if mode = "move overview" ∧ mosaic then mosaicCorrect markers mosaicMain singleMain
  else markers

/-- The `except NameError` fallback of the marker setup in `main`: the four
split (Gl/D suffixed) row parameters are all required; a missing one
propagates an unhandled `NameError` (modelled as `none`).  `kept` is
whatever the `try` block managed to put into `pos_read` before failing. -/
def splitMarkerFallback (lmFile ovFile : String)
    (kept : List (String × String × List Nat))
    (glRows dRows ovGlRows ovDRows : Option (List Nat)) :
    Option (List (String × String × List Nat)) :=
  match glRows, dRows, ovGlRows, ovDRows with
  | some g1, some d1, some g2, some d2 =>
    some (kept ++ [("lmMarkersGl", (lmFile, g1)), ("lmMarkersD", (lmFile, d1)),
                   ("overviewMarkersGl", (ovFile, g2)), ("overviewMarkersD", (ovFile, d2))])
  | _, _, _, _ => none

/-- The `try`/`except NameError` marker setup of `main`: try to register the
unified `lmMarkers`/`overviewMarkers` reads; on the first missing unified
row parameter fall back to the split (Gl/D) reads, keeping whatever the
`try` block already registered.  The result is the contents of `pos_read`
(key, file, rows), or `none` for an unhandled `NameError`. -/
def setupMarkerReads (lmFile ovFile : String)
    (lmRows ovRows glRows dRows ovGlRows ovDRows : Option (List Nat)) :
    Option (List (String × String × List Nat)) :=
  match lmRows, ovRows with
  | some r1, some r2 => some [("lmMarkers", (lmFile, r1)), ("overviewMarkers", (ovFile, r2))]
  | some r1, none =>
    splitMarkerFallback lmFile ovFile [("lmMarkers", (lmFile, r1))] glRows dRows ovGlRows ovDRows
  | none, _ =>
    splitMarkerFallback lmFile ovFile [] glRows dRows ovGlRows ovDRows

/-- Decimal digits of `n`, most significant first: the reverse of
`Nat.digits 10 n` (empty for 0). -/
def digitsBE (n : Nat) : List Nat := (Nat.digits 10 n).reverse

/-- Python `'{:0wd}'.format(n)` digit list: the decimal digits of `n`
left-padded with zeros to width `w` (never truncated). -/
def zeroPadDigits (w n : Nat) : List Nat :=
  List.replicate (w - (digitsBE n).length) 0 ++ digitsBE n

/-- The character for a decimal digit. -/
def digitChar (d : Nat) : Char := Char.ofNat (48 + d)

/-- Python `'{:0wd}'.format(n)` as a string. -/
def padFormat (w n : Nat) : String := String.mk ((zeroPadDigits w n).map digitChar)

/-- A particle file name of `Set.write_particles`:
`identifier + "_id-" + zero-padded number + ".mrc"`. -/
def partName (identifier : String) (w n : Nat) : String :=
  identifier ++ "_id-" ++ padFormat w n ++ ".mrc"

/-- `numpy.max` over the id array (ids are nonnegative). -/
def listMaxNat (l : List Nat) : Nat := l.foldl Nat.max 0

/-- Observable effects of one `Set.write_particles` call: the
`_particle_paths` attribute, whether the particle directory was created
(`os.makedirs`), and the files written. -/
structure WriteState where
  particle_paths : List String
  dir_created : Bool
  files_written : List String
deriving DecidableEq

/-- `Set.write_particles`: with an empty id list it sets `_particle_paths`
to `[]` and returns before creating the particle directory or writing
anything.  Otherwise the file names use the original ids zero-padded to the
digit count of the largest id (`keep_ids`), or the ranks `0..n-1`
zero-padded to the digit count of the batch size, each name joined to the
particle directory; one file per (left corner, path) pair is written unless
`test` is set. -/
def write_particles (identifier particleDir : String) (leftCorners : List Vec3)
    (ids : List Nat) (keepIds : Bool) (test : Bool) : WriteState :=
  if ids.length = 0 then ⟨[], false, []⟩
  else
    let names :=
      if keepIds then
        let nDigits := Nat.log 10 (listMaxNat ids) + 1
        ids.map fun i => partName identifier nDigits i
      else
        let nDigits := Nat.log 10 ids.length + 1
        (List.range ids.length).map fun i => partName identifier nDigits i
    let paths := names.map fun nm => particleDir ++ "/" ++ nm
    ⟨paths, true, if test then [] else (leftCorners.zip paths).map Prod.snd⟩

/-- One row of the particle catalog `Set.data`. -/
structure ParticleRow where
  identifier : String
  group_name : String
  id : Nat
  tomo_path : String
  particle_path : String
  left_corner_x : Int
  left_corner_y : Int
  left_corner_z : Int
deriving DecidableEq

/-- `Set.add_data`: with an empty id list it returns at once, leaving
`self.data` untouched; otherwise it builds one row per id and appends the
rows to the accumulated table (`None` data becomes the new table). -/
def add_data (data : Option (List ParticleRow)) (groupName identifier : String)
    (ids : List Nat) (tomoPath : String) (particlePaths : List String)
    (leftCorners : List Vec3) : Option (List ParticleRow) :=
  if ids.length = 0 then data
  else
    let curr := (ids.zip (particlePaths.zip leftCorners)).map fun t =>
      { identifier := identifier, group_name := groupName, id := t.1,
        tomo_path := tomoPath, particle_path := t.2.1,
        left_corner_x := t.2.2.x, left_corner_y := t.2.2.y,
        left_corner_z := t.2.2.z : ParticleRow }
    match data with
    | none => some curr
    | some rows => some (rows ++ curr)

/-- Proof-support view of a width-`w` zero-padded numeral: the digits of
`n` by place value, least significant first. -/
def leDigits : Nat → Nat → List Nat
  | 0, _ => []
  | w + 1, n => n % 10 :: leDigits w (n / 10)

/-- Proof-support view of a width-`w` zero-padded numeral, most significant
digit first. -/
def bigPad (w n : Nat) : List Nat := (leDigits w n).reverse

noncomputable section

/-- `numpy.ndarray.mean()` of the particle intensities. -/
def listMean (l : List ℝ) : ℝ := l.sum / (l.length : ℝ)

/-- The variance underlying `numpy.ndarray.std()` (population variance,
`ddof = 0`): mean of the squared deviations from the mean. -/
def listVar (l : List ℝ) : ℝ := (l.map fun v => (v - listMean l) ^ 2).sum / (l.length : ℝ)

/-- `numpy.ndarray.std()`: square root of the population variance. -/
def listStd (l : List ℝ) : ℝ := Real.sqrt (listVar l)

/-- The intensity-normalization stage of `Set.write_particles`:
`if self.std is not None: data = self.std * data / data.std()` followed by
`if self.mean is not None: data = data - data.mean() + self.mean`.
The rescale divides by `data.std()` unconditionally — there is no
zero-variance guard. -/
def normalizeParticle (stdTarget meanTarget : Option ℝ) (data : List ℝ) : List ℝ :=
  let d1 := match stdTarget with
    | some s => data.map fun v => s * v / listStd data
    | none => data
  match meanTarget with
  | some m => d1.map fun v => v - listMean d1 + m
  | none => d1

/-- The error attributes and principal-axis scale factors of a fitted
`pyto.geometry.Affine2D` transform, as consumed by the inverse-error
propagation in `main`. -/
structure Affine2DErr where
  rmsError : Option ℝ
  rmsErrorEst : Option ℝ
  scale : ℝ × ℝ

/-- The inverse-error propagation block of `main`: when the freshly
inverted transform `inv` has no exact rms error, scale the forward
transform's exact (preferred) or estimated error by
`sqrt(inv.scale[0] * inv.scale[1])` and store it as the inverse's estimated
error; with neither forward error the inverse's `rmsError` is (re)set to
`None`. -/
def propagateInverseError (fwd inv : Affine2DErr) : Affine2DErr :=
  if inv.rmsError.isNone then
    let s := Real.sqrt (inv.scale.1 * inv.scale.2)
    match fwd.rmsError with
    | some e => { inv with rmsErrorEst := some (e * s) }
    | none =>
      match fwd.rmsErrorEst with
      | some e => { inv with rmsErrorEst := some (e * s) }
      | none => { inv with rmsError := none }
  else inv

end

theorem adjustAxis_bounds (b s c : Int) (h : b ≤ s) :
    0 ≤ (adjustAxis b s c).1 ∧ (adjustAxis b s c).1 + b ≤ s := by
  simp only [adjustAxis]
  split_ifs <;> constructor <;> omega

/-- C1: for every volume shape, box size and center (including centers
outside the volume), if the box size is at most the shape on every axis then
`adjust_box_coords` returns, for every center, a left corner that is
nonnegative and satisfies left corner + box size ≤ shape on every axis;
if the box size exceeds the shape on some axis it raises the box-too-large
`ValueError` instead. -/
theorem adjust_box_coords_spec (boxSize : Int) (shape : Vec3) (centers : List Vec3) :
    ((boxSize ≤ shape.x ∧ boxSize ≤ shape.y ∧ boxSize ≤ shape.z) →
      ∃ l, adjust_box_coords boxSize shape centers = Except.ok l ∧
        ∀ p ∈ l,
          (0 ≤ p.1.x ∧ p.1.x + boxSize ≤ shape.x) ∧
          (0 ≤ p.1.y ∧ p.1.y + boxSize ≤ shape.y) ∧
          (0 ≤ p.1.z ∧ p.1.z + boxSize ≤ shape.z)) ∧
    ((shape.x < boxSize ∨ shape.y < boxSize ∨ shape.z < boxSize) →
      ∃ msg, adjust_box_coords boxSize shape centers = Except.error msg) := by
  constructor
  · rintro ⟨hx, hy, hz⟩
    refine ⟨centers.map fun c =>
      let ax := adjustAxis boxSize shape.x c.x
      let ay := adjustAxis boxSize shape.y c.y
      let az := adjustAxis boxSize shape.z c.z
      (⟨(ax).1, (ay).1, (az).1⟩, ⟨(ax).2, (ay).2, (az).2⟩), ?_, ?_⟩
    · rw [adjust_box_coords, if_neg (by omega)]
    · intro p hp
      obtain ⟨c, _, rfl⟩ := List.mem_map.mp hp
      exact ⟨adjustAxis_bounds boxSize shape.x c.x hx,
             adjustAxis_bounds boxSize shape.y c.y hy,
             adjustAxis_bounds boxSize shape.z c.z hz⟩
  · intro h
    exact ⟨_, by rw [adjust_box_coords, if_pos h]⟩

/-- Witness for C1: a concrete in-range configuration (including an
out-of-volume center) and a concrete too-large box. -/
theorem adjust_box_coords_spec_witness :
    (∃ l, adjust_box_coords 10 ⟨100, 100, 100⟩ [⟨7, -3, 250⟩] = Except.ok l ∧
      ∀ p ∈ l,
        (0 ≤ p.1.x ∧ p.1.x + 10 ≤ (100 : Int)) ∧
        (0 ≤ p.1.y ∧ p.1.y + 10 ≤ (100 : Int)) ∧
        (0 ≤ p.1.z ∧ p.1.z + 10 ≤ (100 : Int))) ∧
    (∃ msg, adjust_box_coords 300 ⟨100, 100, 100⟩ [⟨0, 0, 0⟩] = Except.error msg) :=
  ⟨(adjust_box_coords_spec 10 ⟨100, 100, 100⟩ [⟨7, -3, 250⟩]).1
      (by refine ⟨by decide, by decide, by decide⟩),
   (adjust_box_coords_spec 300 ⟨100, 100, 100⟩ [⟨0, 0, 0⟩]).2 (by decide)⟩

/-- C5: for a (100,100,100) volume and box size 10, center (2,2,2) resolves
to left corner (0,0,0) with corrected center (5,5,5), and center (98,98,98)
resolves to left corner (90,90,90) (so the right corner is clamped to
(100,100,100) = left corner + box size) with corrected center (95,95,95). -/
theorem adjust_box_coords_examples :
    adjust_box_coords 10 ⟨100, 100, 100⟩ [⟨2, 2, 2⟩, ⟨98, 98, 98⟩] =
      Except.ok [(⟨0, 0, 0⟩, ⟨5, 5, 5⟩), (⟨90, 90, 90⟩, ⟨95, 95, 95⟩)] := rfl

/-- C10: for a dataset whose id list is empty, `write_particles` sets the
particle path list to the empty list and returns without creating the
particle directory or writing any file, and `add_data` returns without
modifying the accumulated catalog. -/
theorem empty_ids_no_effect (identifier particleDir groupName tomoPath : String)
    (leftCorners : List Vec3) (keepIds test : Bool)
    (data : Option (List ParticleRow)) (particlePaths : List String) :
    write_particles identifier particleDir leftCorners [] keepIds test =
      ⟨[], false, []⟩ ∧
    add_data data groupName identifier [] tomoPath particlePaths leftCorners = data :=
  ⟨rfl, rfl⟩

/-- C6: when some particle value lies outside the target dtype's
representable range, `write_particles` emits the (non-fatal) clip warning
and clips all values to the representable bounds before casting; in
particular data containing 200 cast to int8 warns and yields 127. -/
theorem write_particles_clip_spec (info : DtypeInfo) (data : List ℚ)
    (hrange : info.rmin ≤ info.rmax)
    (hout : ∃ v ∈ data, v < info.rmin ∨ info.rmax < v) :
    clipWarn info data = true ∧
    (∀ w ∈ clipData info data, info.rmin ≤ w ∧ w ≤ info.rmax) ∧
    castParticle int8Info [200] = (true, [127]) := by
  refine ⟨?_, ?_, by decide⟩
  · obtain ⟨v, hv, hcase⟩ := hout
    simp only [clipWarn, Bool.or_eq_true, List.any_eq_true, decide_eq_true_eq]
    rcases hcase with h | h
    · exact Or.inl ⟨v, hv, h⟩
    · exact Or.inr ⟨v, hv, h⟩
  · intro w hw
    obtain ⟨v, _, rfl⟩ := List.mem_map.mp hw
    exact ⟨le_min (le_max_right _ _) hrange, min_le_right _ _⟩

/-- Witness for C6: the int8 range with the concrete out-of-range value 200. -/
theorem write_particles_clip_spec_witness :
    clipWarn int8Info [200] = true ∧
    (∀ w ∈ clipData int8Info [200], int8Info.rmin ≤ w ∧ w ≤ int8Info.rmax) ∧
    castParticle int8Info [200] = (true, [127]) :=
  write_particles_clip_spec int8Info [200] (by decide) ⟨200, by decide, by decide⟩

/-- C9: `extract_particles` raises the configuration `ValueError` whenever a
requested identifier is absent from the identifier lists of all given
groups. -/
theorem extract_particles_unknown_identifier (struct : String → List String)
    (groupNames idents : List String) (ident : String)
    (hmem : ident ∈ idents) (habs : ∀ g ∈ groupNames, ident ∉ struct g) :
    ∃ msg, extract_particles struct groupNames idents = Except.error msg := by
  induction idents with
  | nil => cases hmem
  | cons a rest ih =>
    rcases List.mem_cons.mp hmem with rfl | hmem'
    · have hfind : groupNames.find? (fun g => decide (ident ∈ struct g)) = none := by
        apply List.find?_eq_none.mpr
        intro g hg
        simpa using habs g hg
      exact ⟨_, by rw [extract_particles, hfind]⟩
    · rcases hfind : groupNames.find? (fun g => decide (a ∈ struct g)) with _ | g
      · exact ⟨_, by rw [extract_particles, hfind]⟩
      · obtain ⟨msg, hmsg⟩ := ih hmem'
        refine ⟨msg, ?_⟩
        rw [extract_particles, hfind, hmsg]

/-- Witness for C9: one identifier, one group with an empty identifier
list. -/
theorem extract_particles_unknown_identifier_witness :
    ∃ msg, extract_particles (fun _ => []) ["g1"] ["tomo1"] = Except.error msg :=
  extract_particles_unknown_identifier (fun _ => []) ["g1"] ["tomo1"] "tomo1"
    (by simp) (by intro g _; simp)

/-- C2 counterexample: with the marker (5,5), mosaic main position (10,0)
and single-image main position (0,0), the script produces (-5,5), which is
the marker shifted by (single - mosaic) = (-10,0); the claim's shift by
(mosaic - single) = (10,0) would give (15,5) instead. -/
theorem mosaic_shift_sign_counterexample :
    overviewMarkersForFit "move overview" true [((5 : ℚ), (5 : ℚ))] (10, 0) (0, 0) =
      [(-5, 5)] ∧
    overviewMarkersForFit "move overview" true [((5 : ℚ), (5 : ℚ))] (10, 0) (0, 0) ≠
      [((5 : ℚ), (5 : ℚ)) + ((10, 0) - (0, 0))] := by
  have hval : overviewMarkersForFit "move overview" true [((5 : ℚ), (5 : ℚ))]
      (10, 0) (0, 0) = [((5 : ℚ), (5 : ℚ)) - (10, 0) + (0, 0)] := rfl
  constructor
  · rw [hval]
    norm_num [Prod.ext_iff, Prod.fst_sub, Prod.snd_sub, Prod.fst_add, Prod.snd_add]
  · rw [hval]
    intro h
    injection h with h1 _
    have hx := congrArg Prod.fst h1
    simp only [Prod.fst_sub, Prod.fst_add] at hx
    norm_num at hx

/-- C2 amended: in move-overview acquisition mode with mosaic enabled,
before any fit every overview marker is shifted exactly once by
`(single_image_main_position - mosaic_main_position)` (the negative of the
claimed vector); in every other mode/mosaic combination the markers are
passed to the fit unchanged. -/
theorem mosaic_shift_spec (markers : List (ℚ × ℚ)) (mosaicMain singleMain : ℚ × ℚ) :
    overviewMarkersForFit "move overview" true markers mosaicMain singleMain =
      markers.map (fun p => p + (singleMain - mosaicMain)) ∧
    (∀ (mode : String) (mosaic : Bool), ¬(mode = "move overview" ∧ mosaic = true) →
      overviewMarkersForFit mode mosaic markers mosaicMain singleMain = markers) := by
  constructor
  · have hfun : (fun p : ℚ × ℚ => p - mosaicMain + singleMain) =
        fun p : ℚ × ℚ => p + (singleMain - mosaicMain) := by
      funext p
      abel
    simp only [overviewMarkersForFit, mosaicCorrect, hfun, eq_self_iff_true,
      and_self, if_true]
  · intro mode mosaic h
    simp only [overviewMarkersForFit, if_neg h]

/-- Witness for C2 (amended): a configuration outside move-overview+mosaic
leaves the markers unchanged. -/
theorem mosaic_shift_spec_witness :
    overviewMarkersForFit "move search" false [((1 : ℚ), (2 : ℚ))] (3, 4) (5, 6) =
      [((1 : ℚ), (2 : ℚ))] :=
  (mosaic_shift_spec [((1 : ℚ), (2 : ℚ))] (3, 4) (5, 6)).2 "move search" false
    (by decide)

/-- C3 counterexample: with the unified and the split marker row parameters
all supplied, the script registers the unified (joint-fit) reads and
reports no error at all, while the claim requires this configuration to be
rejected as a configuration error. -/
theorem marker_selection_counterexample :
    setupMarkerReads "f" "g" (some [0]) (some [1]) (some [2]) (some [3]) (some [4])
        (some [5]) =
      some [("lmMarkers", ("f", [0])), ("overviewMarkers", ("g", [1]))] ∧
    setupMarkerReads "f" "g" (some [0]) (some [1]) (some [2]) (some [3]) (some [4])
        (some [5]) ≠ none := by
  constructor <;> decide

/-- C3 amended: when both unified marker row parameters are defined the
joint-fit reads are used regardless of the split parameters; when the
unified ones are (partly) undefined and all four split parameters are
defined the split reads are used (with the already-registered unified lm
read kept when only the overview unified rows are missing); when at least
one unified and at least one split parameter are undefined the script fails
with an unhandled `NameError`, not a dedicated configuration error. -/
theorem marker_selection_spec (lmFile ovFile : String) (r1 r2 g1 d1 g2 d2 : List Nat)
    (o1 o2 o3 o4 o5 o6 : Option (List Nat)) :
    (∀ a3 a4 a5 a6 : Option (List Nat),
      setupMarkerReads lmFile ovFile (some r1) (some r2) a3 a4 a5 a6 =
        some [("lmMarkers", (lmFile, r1)), ("overviewMarkers", (ovFile, r2))]) ∧
    (setupMarkerReads lmFile ovFile none o2 (some g1) (some d1) (some g2) (some d2) =
      some [("lmMarkersGl", (lmFile, g1)), ("lmMarkersD", (lmFile, d1)),
            ("overviewMarkersGl", (ovFile, g2)), ("overviewMarkersD", (ovFile, d2))]) ∧
    (setupMarkerReads lmFile ovFile (some r1) none (some g1) (some d1) (some g2)
        (some d2) =
      some [("lmMarkers", (lmFile, r1)),
            ("lmMarkersGl", (lmFile, g1)), ("lmMarkersD", (lmFile, d1)),
            ("overviewMarkersGl", (ovFile, g2)), ("overviewMarkersD", (ovFile, d2))]) ∧
    ((o1 = none ∨ o2 = none) → (o3 = none ∨ o4 = none ∨ o5 = none ∨ o6 = none) →
      setupMarkerReads lmFile ovFile o1 o2 o3 o4 o5 o6 = none) := by
  refine ⟨fun a3 a4 a5 a6 => rfl, ?_, rfl, ?_⟩
  · cases o2 <;> rfl
  · intro h1 h2
    cases o1 <;> cases o2 <;> cases o3 <;> cases o4 <;> cases o5 <;> cases o6 <;>
      simp_all [setupMarkerReads, splitMarkerFallback]

/-- Witness for C3 (amended): all parameters missing yields the `NameError`
outcome; both unified parameters present yields the joint-fit reads. -/
theorem marker_selection_spec_witness :
    setupMarkerReads "f" "g" none none none none none none = none ∧
    setupMarkerReads "f" "g" (some [0]) (some [1]) none none none none =
      some [("lmMarkers", ("f", [0])), ("overviewMarkers", ("g", [1]))] :=
  ⟨(marker_selection_spec "f" "g" [0] [1] [] [] [] [] none none none none none
      none).2.2.2 (Or.inl rfl) (Or.inl rfl),
   (marker_selection_spec "f" "g" [0] [1] [] [] [] [] none none none none none
      none).1 none none none none⟩

/-- C4: when the inverse transform has no exact rms error of its own, the
forward transform's exact rms error (preferred) or estimated error, scaled
by `sqrt` of the product of the inverse's two scale factors, becomes the
inverse's estimated error; with neither forward error the inverse keeps no
error value. -/
theorem inverse_error_propagation (fwd inv : Affine2DErr)
    (hinv : inv.rmsError = none) (hinvEst : inv.rmsErrorEst = none) :
    (∀ e, fwd.rmsError = some e →
      (propagateInverseError fwd inv).rmsErrorEst =
        some (e * Real.sqrt (inv.scale.1 * inv.scale.2))) ∧
    (fwd.rmsError = none → ∀ e, fwd.rmsErrorEst = some e →
      (propagateInverseError fwd inv).rmsErrorEst =
        some (e * Real.sqrt (inv.scale.1 * inv.scale.2))) ∧
    (fwd.rmsError = none → fwd.rmsErrorEst = none →
      (propagateInverseError fwd inv).rmsError = none ∧
      (propagateInverseError fwd inv).rmsErrorEst = none) := by
  have hcond : inv.rmsError.isNone = true := by rw [hinv]; rfl
  refine ⟨?_, ?_, ?_⟩
  · intro e he
    simp [propagateInverseError, hcond, he]
  · intro h0 e he
    simp [propagateInverseError, hcond, h0, he]
  · intro h0 h1
    simp [propagateInverseError, hcond, h0, h1, hinv, hinvEst]

/-- Witness for C4: forward exact error 2, inverse scale factors (1,1). -/
theorem inverse_error_propagation_witness :
    (propagateInverseError ⟨some 2, none, (0, 0)⟩ ⟨none, none, (1, 1)⟩).rmsErrorEst =
      some (2 * Real.sqrt ((1 : ℝ) * 1)) :=
  (inverse_error_propagation ⟨some 2, none, (0, 0)⟩ ⟨none, none, (1, 1)⟩ rfl rfl).1 2
    rfl

theorem sum_map_affine (a b : ℝ) (l : List ℝ) :
    (l.map fun v => a * v + b).sum = a * l.sum + b * l.length := by
  induction l with
  | nil => simp
  | cons x xs ih =>
    simp only [List.map_cons, List.sum_cons, ih, List.length_cons]
    push_cast
    ring

theorem sum_map_mul (c : ℝ) (f : ℝ → ℝ) (l : List ℝ) :
    (l.map fun v => c * f v).sum = c * (l.map f).sum := by
  induction l with
  | nil => simp
  | cons x xs ih =>
    simp only [List.map_cons, List.sum_cons, ih]
    ring

theorem length_cast_ne_zero {l : List ℝ} (hl : l ≠ []) : ((l.length : ℕ) : ℝ) ≠ 0 :=
  Nat.cast_ne_zero.mpr (List.length_pos.mpr hl).ne'

theorem listMean_map_affine (a b : ℝ) (l : List ℝ) (hl : l ≠ []) :
    listMean (l.map fun v => a * v + b) = a * listMean l + b := by
  have hn := length_cast_ne_zero hl
  simp only [listMean, List.length_map, sum_map_affine]
  field_simp

theorem listVar_map_affine (a b : ℝ) (l : List ℝ) (hl : l ≠ []) :
    listVar (l.map fun v => a * v + b) = a ^ 2 * listVar l := by
  simp only [listVar, List.length_map, listMean_map_affine a b l hl, List.map_map]
  have hfun : ((fun v => (v - (a * listMean l + b)) ^ 2) ∘ fun v => a * v + b) =
      fun v => a ^ 2 * (v - listMean l) ^ 2 := by
    funext v
    simp only [Function.comp]
    ring
  rw [hfun, sum_map_mul, mul_div_assoc]

theorem listVar_nonneg (l : List ℝ) : 0 ≤ listVar l := by
  apply div_nonneg
  · apply List.sum_nonneg
    intro x hx
    obtain ⟨v, _, rfl⟩ := List.mem_map.mp hx
    positivity
  · exact Nat.cast_nonneg _

theorem listStd_sq (l : List ℝ) : listStd l ^ 2 = listVar l :=
  Real.sq_sqrt (listVar_nonneg l)

theorem listStd_ne_zero {l : List ℝ} (h : listVar l ≠ 0) : listStd l ≠ 0 := by
  intro h0
  apply h
  rw [← listStd_sq l, h0]
  ring

theorem listVar_ne_zero_ne_nil {l : List ℝ} (h : listVar l ≠ 0) : l ≠ [] := by
  intro h0
  apply h
  subst h0
  simp [listVar]

/-- C7: with a target std `s` configured and nonzero-variance data, the
rescaled particle has std exactly `s`; the subsequent mean shift (when a
target mean is configured) makes the mean exactly the target without
changing the std; skipping a step leaves the corresponding statistic alone
(no std target: the std is unchanged by the mean shift; no mean target: no
shift happens); with neither target the data is untouched.  The rescale is
an unguarded division by `data.std()` — zero-variance data hits a division
by zero rather than being silently special-cased. -/
theorem normalize_particle_spec (data : List ℝ) (s m : ℝ) (hs : 0 ≤ s)
    (hvar : listVar data ≠ 0) :
    listStd (normalizeParticle (some s) (some m) data) = s ∧
    listMean (normalizeParticle (some s) (some m) data) = m ∧
    listStd (normalizeParticle (some s) none data) = s ∧
    (listMean (normalizeParticle none (some m) data) = m ∧
     listStd (normalizeParticle none (some m) data) = listStd data) ∧
    normalizeParticle none none data = data ∧
    normalizeParticle (some s) none data = (data.map fun v => s * v / listStd data) := by
  have hnil : data ≠ [] := listVar_ne_zero_ne_nil hvar
  have hσ0 : listStd data ≠ 0 := listStd_ne_zero hvar
  have hstep1 : (data.map fun v => s * v / listStd data) =
      data.map fun v => (s / listStd data) * v + 0 := by
    have : (fun v => s * v / listStd data) =
        fun v => (s / listStd data) * v + 0 := by
      funext v
      ring
    rw [this]
  have hd1var : listVar (data.map fun v => s * v / listStd data) = s ^ 2 := by
    rw [hstep1, listVar_map_affine _ _ _ hnil, ← listStd_sq data, div_pow,
      div_mul_cancel₀]
    exact pow_ne_zero 2 hσ0
  have hd1nil : (data.map fun v => s * v / listStd data) ≠ [] := by
    intro h0
    rw [List.map_eq_nil_iff] at h0
    exact hnil h0
  have hstep2 : ∀ (l : List ℝ) (mm : ℝ),
      (l.map fun v => v - listMean l + mm) = l.map fun v => 1 * v + (mm - listMean l) := by
    intro l mm
    have : (fun v => v - listMean l + mm) =
        fun v => 1 * v + (mm - listMean l) := by
      funext v
      ring
    rw [this]
  refine ⟨?_, ?_, ?_, ⟨?_, ?_⟩, rfl, rfl⟩
  · show listStd ((data.map fun v => s * v / listStd data).map fun v =>
      v - listMean (data.map fun v => s * v / listStd data) + m) = s
    rw [listStd, hstep2, listVar_map_affine _ _ _ hd1nil, hd1var, one_pow, one_mul]
    exact Real.sqrt_sq hs
  · show listMean ((data.map fun v => s * v / listStd data).map fun v =>
      v - listMean (data.map fun v => s * v / listStd data) + m) = m
    rw [hstep2, listMean_map_affine _ _ _ hd1nil]
    ring
  · show listStd (data.map fun v => s * v / listStd data) = s
    rw [listStd, hd1var]
    exact Real.sqrt_sq hs
  · show listMean (data.map fun v => v - listMean data + m) = m
    rw [hstep2, listMean_map_affine _ _ _ hnil]
    ring
  · show listStd (data.map fun v => v - listMean data + m) = listStd data
    rw [listStd, hstep2, listVar_map_affine _ _ _ hnil, one_pow, one_mul, listStd]

/-- Witness for C7: data [0, 2] (variance 1), std target 3, mean target 5. -/
theorem normalize_particle_spec_witness :
    (0 : ℝ) ≤ 3 ∧ listVar [(0 : ℝ), 2] ≠ 0 ∧
    listMean (normalizeParticle (some 3) (some 5) [(0 : ℝ), 2]) = 5 :=
  ⟨by norm_num,
   by norm_num [listVar, listMean],
   (normalize_particle_spec [(0 : ℝ), 2] 3 5 (by norm_num)
      (by norm_num [listVar, listMean])).2.1⟩

theorem lex_append_left {α : Type} {r : α → α → Prop} (p : List α) {a b : List α}
    (h : List.Lex r a b) : List.Lex r (p ++ a) (p ++ b) := by
  induction p with
  | nil => simpa using h
  | cons x xs ih => exact List.Lex.cons ih

theorem lex_append_of_eqlen {α : Type} {r : α → α → Prop} :
    ∀ {a b : List α}, List.Lex r a b → a.length = b.length →
      ∀ (s t : List α), List.Lex r (a ++ s) (b ++ t) := by
  intro a b h
  induction h with
  | nil => intro hlen s t; simp at hlen
  | cons h ih => intro hlen s t; exact List.Lex.cons (ih (by simpa using hlen) s t)
  | rel hr => intro hlen s t; exact List.Lex.rel hr

theorem leDigits_length (w : Nat) : ∀ n : Nat, (leDigits w n).length = w := by
  induction w with
  | zero => intro n; rfl
  | succ w ih => intro n; simp [leDigits, ih]

theorem bigPad_length (w n : Nat) : (bigPad w n).length = w := by
  simp [bigPad, leDigits_length]

theorem bigPad_succ (w n : Nat) : bigPad (w + 1) n = bigPad w (n / 10) ++ [n % 10] := by
  simp [bigPad, leDigits]

theorem bigPad_lt_lex : ∀ (w i j : Nat), i < j → j < 10 ^ w →
    List.Lex (· < ·) (bigPad w i) (bigPad w j) := by
  intro w
  induction w with
  | zero => intro i j hij hj; simp at hj; omega
  | succ w ih =>
    intro i j hij hj
    rw [bigPad_succ, bigPad_succ]
    rcases Nat.lt_trichotomy (i / 10) (j / 10) with h | h | h
    · have hjq : j / 10 < 10 ^ w := by
        rw [Nat.div_lt_iff_lt_mul (by norm_num)]
        rw [pow_succ] at hj
        exact hj
      exact lex_append_of_eqlen (ih _ _ h hjq)
        (by rw [bigPad_length, bigPad_length]) _ _
    · rw [h]
      apply lex_append_left
      exact List.Lex.rel (by omega)
    · exfalso
      have := Nat.div_le_div_right (c := 10) (Nat.le_of_lt hij)
      omega

theorem leDigits_eq_digits : ∀ (w : Nat), ∀ n < 10 ^ w,
    leDigits w n = Nat.digits 10 n ++ List.replicate (w - (Nat.digits 10 n).length) 0 := by
  intro w
  induction w with
  | zero =>
    intro n hn
    have : n = 0 := by simpa using hn
    subst this
    simp [leDigits]
  | succ w ih =>
    intro n hn
    rcases Nat.eq_zero_or_pos n with rfl | hpos
    · have hstep : leDigits (w + 1) 0 = 0 % 10 :: leDigits w 0 := rfl
      rw [hstep, ih 0 (pow_pos (by norm_num) w)]
      simp [List.replicate_succ]
    · have hstep : leDigits (w + 1) n = n % 10 :: leDigits w (n / 10) := rfl
      rw [hstep, Nat.digits_def' (by norm_num : (1 : ℕ) < 10) hpos]
      have hq : n / 10 < 10 ^ w := by
        rw [Nat.div_lt_iff_lt_mul (by norm_num)]
        rw [pow_succ] at hn
        exact hn
      rw [ih _ hq, List.cons_append, List.length_cons]
      have harith : w + 1 - ((Nat.digits 10 (n / 10)).length + 1) =
          w - (Nat.digits 10 (n / 10)).length := by omega
      rw [harith]

theorem zeroPadDigits_eq_bigPad (w n : Nat) (hn : n < 10 ^ w) :
    zeroPadDigits w n = bigPad w n := by
  simp [zeroPadDigits, bigPad, leDigits_eq_digits w n hn, List.reverse_append,
    List.reverse_replicate, digitsBE, List.length_reverse]

theorem zeroPadDigits_length (w n : Nat) (hn : n < 10 ^ w) :
    (zeroPadDigits w n).length = w := by
  rw [zeroPadDigits_eq_bigPad w n hn, bigPad_length]

theorem zeroPadDigits_lt_ten (w n : Nat) : ∀ d ∈ zeroPadDigits w n, d < 10 := by
  intro d hd
  rw [zeroPadDigits] at hd
  rcases List.mem_append.mp hd with h | h
  · rw [List.eq_of_mem_replicate h]
    norm_num
  · rw [digitsBE, List.mem_reverse] at h
    exact Nat.digits_lt_base (by norm_num) h

theorem digitChar_lt {d1 d2 : Nat} (h1 : d1 < 10) (h2 : d2 < 10) (h : d1 < d2) :
    digitChar d1 < digitChar d2 := by
  interval_cases d1 <;> interval_cases d2 <;> decide

theorem lex_map_digitChar : ∀ {a b : List Nat}, List.Lex (· < ·) a b →
    (∀ d ∈ a, d < 10) → (∀ d ∈ b, d < 10) →
    List.Lex (· < ·) (a.map digitChar) (b.map digitChar) := by
  intro a b h
  induction h with
  | nil => intro _ _; exact List.Lex.nil
  | cons h ih =>
    intro ha hb
    exact List.Lex.cons (ih (fun d hd => ha d (List.mem_cons_of_mem _ hd))
      (fun d hd => hb d (List.mem_cons_of_mem _ hd)))
  | rel hr =>
    intro ha hb
    exact List.Lex.rel (digitChar_lt (ha _ (List.mem_cons_self _ _))
      (hb _ (List.mem_cons_self _ _)) hr)

theorem string_data_append (s t : String) : (s ++ t).data = s.data ++ t.data := rfl

theorem string_length_data (s : String) : s.length = s.data.length := rfl

theorem partName_data (pre identifier : String) (w n : Nat) :
    (pre ++ partName identifier w n).data =
      (pre.data ++ identifier.data ++ "_id-".data) ++
        ((zeroPadDigits w n).map digitChar ++ ".mrc".data) := by
  simp only [partName, padFormat, string_data_append, List.append_assoc]

theorem partName_length (pre identifier : String) (w n : Nat) (hn : n < 10 ^ w) :
    (pre ++ partName identifier w n).length =
      pre.length + identifier.length + 4 + w + 4 := by
  rw [string_length_data, partName_data]
  have h1 : ("_id-".data).length = 4 := rfl
  have h2 : (".mrc".data).length = 4 := rfl
  simp only [List.length_append, List.length_map, h1, h2,
    zeroPadDigits_length w n hn, string_length_data]
  omega

theorem partName_lt (pre identifier : String) (w i j : Nat) (hij : i < j)
    (hjw : j < 10 ^ w) :
    pre ++ partName identifier w i < pre ++ partName identifier w j := by
  rw [String.lt_iff_toList_lt]
  show List.Lex (· < ·) (pre ++ partName identifier w i).data
    (pre ++ partName identifier w j).data
  rw [partName_data, partName_data]
  apply lex_append_left
  apply lex_append_of_eqlen
  · apply lex_map_digitChar
    · rw [zeroPadDigits_eq_bigPad w i (lt_trans hij hjw),
        zeroPadDigits_eq_bigPad w j hjw]
      exact bigPad_lt_lex w i j hij hjw
    · exact zeroPadDigits_lt_ten w i
    · exact zeroPadDigits_lt_ten w j
  · rw [List.length_map, List.length_map,
      zeroPadDigits_length w i (lt_trans hij hjw), zeroPadDigits_length w j hjw]

theorem foldl_max_le_init : ∀ (l : List Nat) (a : Nat), a ≤ l.foldl Nat.max a := by
  intro l
  induction l with
  | nil => intro a; exact Nat.le_refl a
  | cons x xs ih =>
    intro a
    exact le_trans (Nat.le_max_left a x) (ih (Nat.max a x))

theorem mem_le_foldl_max : ∀ (l : List Nat) (a : Nat), ∀ i ∈ l, i ≤ l.foldl Nat.max a := by
  intro l
  induction l with
  | nil => intro a i hi; cases hi
  | cons x xs ih =>
    intro a i hi
    rcases List.mem_cons.mp hi with rfl | h
    · exact le_trans (Nat.le_max_right a i) (foldl_max_le_init xs (Nat.max a i))
    · exact ih (Nat.max a x) i h

theorem le_listMaxNat (l : List Nat) : ∀ i ∈ l, i ≤ listMaxNat l :=
  mem_le_foldl_max l 0

theorem write_particles_paths_keep (identifier particleDir : String)
    (leftCorners : List Vec3) (ids : List Nat) (test : Bool) (hne : ids ≠ []) :
    (write_particles identifier particleDir leftCorners ids true test).particle_paths =
      ids.map fun i =>
        particleDir ++ "/" ++ partName identifier (Nat.log 10 (listMaxNat ids) + 1) i := by
  have hlen : ¬(ids.length = 0) := by
    simpa [List.length_eq_zero] using hne
  unfold write_particles
  rw [if_neg hlen]
  simp [List.map_map, Function.comp]

theorem write_particles_paths_rank (identifier particleDir : String)
    (leftCorners : List Vec3) (ids : List Nat) (test : Bool) (hne : ids ≠ []) :
    (write_particles identifier particleDir leftCorners ids false test).particle_paths =
      (List.range ids.length).map fun i =>
        particleDir ++ "/" ++ partName identifier (Nat.log 10 ids.length + 1) i := by
  have hlen : ¬(ids.length = 0) := by
    simpa [List.length_eq_zero] using hne
  unfold write_particles
  rw [if_neg hlen]
  simp [List.map_map, Function.comp]

/-- C8: particle file names are deterministic functions of the dataset
identifier and either the original id (`keep_ids`) or the zero-based rank,
zero-padded to the digit count of the largest id (resp. of the batch
count); hence within one dataset all paths have uniform length, and they
sort lexically in id order (resp. rank order). -/
theorem write_particles_names_spec (identifier particleDir : String)
    (leftCorners : List Vec3) (ids : List Nat) (test : Bool)
    (hne : ids ≠ []) (hpos : ∀ i ∈ ids, 1 ≤ i) :
    (∀ p ∈ (write_particles identifier particleDir leftCorners ids true
        test).particle_paths,
      p.length = particleDir.length + 1 + identifier.length + 4 +
        (Nat.log 10 (listMaxNat ids) + 1) + 4) ∧
    (List.Pairwise (· < ·) ids →
      List.Pairwise (· < ·)
        (write_particles identifier particleDir leftCorners ids true
          test).particle_paths) ∧
    (∀ p ∈ (write_particles identifier particleDir leftCorners ids false
        test).particle_paths,
      p.length = particleDir.length + 1 + identifier.length + 4 +
        (Nat.log 10 ids.length + 1) + 4) ∧
    List.Pairwise (· < ·)
      (write_particles identifier particleDir leftCorners ids false
        test).particle_paths := by
  have hkeep := write_particles_paths_keep identifier particleDir leftCorners ids test hne
  have hrank := write_particles_paths_rank identifier particleDir leftCorners ids test hne
  have hwk : ∀ i ∈ ids, i < 10 ^ (Nat.log 10 (listMaxNat ids) + 1) := by
    intro i hi
    exact lt_of_le_of_lt (le_listMaxNat ids i hi)
      (Nat.lt_pow_succ_log_self (by norm_num) _)
  have hwr : ∀ i ∈ List.range ids.length, i < 10 ^ (Nat.log 10 ids.length + 1) := by
    intro i hi
    exact lt_of_lt_of_le (List.mem_range.mp hi)
      (le_of_lt (Nat.lt_pow_succ_log_self (by norm_num) _))
  have hdirlen : (particleDir ++ "/").length = particleDir.length + 1 := by
    rw [string_length_data, string_data_append, List.length_append]
    rfl
  refine ⟨?_, ?_, ?_, ?_⟩
  · rw [hkeep]
    intro p hp
    obtain ⟨i, hi, rfl⟩ := List.mem_map.mp hp
    have hlenEq := partName_length (particleDir ++ "/") identifier _ i (hwk i hi)
    rw [hdirlen] at hlenEq
    exact hlenEq
  · intro hsorted
    rw [hkeep]
    refine List.pairwise_map.mpr ?_
    refine hsorted.imp_of_mem ?_
    intro a b ha hb hab
    exact partName_lt (particleDir ++ "/") identifier _ a b hab (hwk b hb)
  · rw [hrank]
    intro p hp
    obtain ⟨i, hi, rfl⟩ := List.mem_map.mp hp
    have hlenEq := partName_length (particleDir ++ "/") identifier _ i (hwr i hi)
    rw [hdirlen] at hlenEq
    exact hlenEq
  · rw [hrank]
    refine List.pairwise_map.mpr ?_
    refine (List.pairwise_lt_range _).imp_of_mem ?_
    intro a b ha hb hab
    exact partName_lt (particleDir ++ "/") identifier _ a b hab (hwr b hb)

/-- Witness for C8: identifiers 2 and 10 in one batch. -/
theorem write_particles_names_spec_witness :
    ([2, 10] : List Nat) ≠ [] ∧ (∀ i ∈ ([2, 10] : List Nat), 1 ≤ i) ∧
    List.Pairwise (· < ·)
      (write_particles "tomo" "particles" [] [2, 10] false false).particle_paths :=
  ⟨by decide, by decide,
   (write_particles_names_spec "tomo" "particles" [] [2, 10] false (by decide)
      (by decide)).2.2.2⟩
